import Mathlib

set_option autoImplicit false

/-!
Verification development for the merror error-classification library.

The definitions below are a shallow embedding of the C++ sources:

* merror/domain/internal/type_map.h — the heterogeneous, type-keyed
  annotation store (TypeMap).  The C++ type-level keys become values of a
  key type K with decidable equality, and the heterogeneous mapped values
  become values of a type V.  A removal is an explicit tombstone entry,
  exactly as the C++ RemoveTag.
* merror/domain/base.h — domain composition (BasePolicy::With) and the
  annotation accessors (HasAnnotation, GetAnnotationOr, ...).  A composed
  policy or builder template (MergeLayers) is represented by the list of
  its leaf fragments; MergeLayers is list concatenation.
* merror/domain/status.h — the StatusBuilder / MakeStatus /
  MakeStatusFallback extensions that resolve the final absl::StatusCode.
* merror/internal/expand_expr.h — relational-operand decomposition.
* merror/internal/tls_map.h and the MTRY state machine from macros.h —
  the thread-confined stash.
-/

namespace Merror

/-! ## Annotation store: merror/domain/internal/type_map.h -/

/-- Entry of a TypeMap.  A value entry corresponds to a C++
Pair of Key and Value; the tombstone corresponds to a Pair of Key and
RemoveTag ("all values with the given key past this one should be
ignored"). -/
inductive MapEntry (V : Type) where
  | value (v : V)
  | removeTag
  deriving DecidableEq, Repr

/-- TypeMap from type_map.h: an ordered list of keyed entries, most
recently added first (Add pushes at the front, as the C++ PushFront). -/
abbrev TypeMap (K V : Type) := List (K × MapEntry V)

/-- Add from type_map.h: push a value entry at the front; existing
entries with the same key are kept. -/
def addAnn {K V : Type} (m : TypeMap K V) (k : K) (v : V) : TypeMap K V :=
  (k, MapEntry.value v) :: m

/-- RemoveAll from type_map.h: implemented as adding a RemoveTag entry
for the key (a tombstone), not as deletion. -/
def removeAllAnn {K V : Type} (m : TypeMap K V) (k : K) : TypeMap K V :=
  (k, MapEntry.removeTag) :: m

/-- GetAll / GetAllImpl from type_map.h: all values for the key, in
reverse order of addition, stopping at the first RemoveTag entry for the
key.  Entries with other keys are skipped. -/
def getAllAnn {K V : Type} [DecidableEq K] : TypeMap K V → K → List V
  | [], _ => []
  | (k2, e) :: rest, k =>
    if k2 = k then
      match e with
      | MapEntry.removeTag => []
      | MapEntry.value v => v :: getAllAnn rest k
    else getAllAnn rest k

/-- Has from type_map.h: the first entry for the key decides; a
RemoveTag entry means the key is absent. -/
def hasKeyAnn {K V : Type} [DecidableEq K] : TypeMap K V → K → Bool
  | [], _ => false
  | (k2, e) :: rest, k =>
    if k2 = k then
      match e with
      | MapEntry.removeTag => false
      | MapEntry.value _ => true
    else hasKeyAnn rest k

/-- Get from type_map.h is the head of GetAll (std::get of index 0);
we expose it as an Option since C++ guards every use by Has. -/
def getAnn? {K V : Type} [DecidableEq K] (m : TypeMap K V) (k : K) : Option V :=
  (getAllAnn m k).head?

/-- GetOr / GetOrImpl from type_map.h over a list of maps: the first map
for which Has holds supplies the value via Get; otherwise the default.
The getD on the guaranteed-present head mirrors the C++ Get, which is
only reached when Has holds. -/
def getOrAnn {K V : Type} [DecidableEq K] : List (TypeMap K V) → K → V → V
  | [], _, d => d
  | m :: rest, k, d => if hasKeyAnn m k then (getAnn? m k).getD d else getOrAnn rest k d

/-- Merge from type_map.h: Join (Reverse (maps...)).  The entries of the
most recently merged map end up at the front and take priority. -/
def mergeAnn {K V : Type} (ms : List (TypeMap K V)) : TypeMap K V :=
  (ms.reverse).flatten

/-! ## Domain composition: merror/domain/base.h -/

/-- Model of a ConcretePolicy (a fully composed error domain): the
composed policy template and the composed builder template are
represented by the lists of their leaf fragments (MergeLayers is list
concatenation), plus the annotation TypeMap. -/
structure MDomain (P B K V : Type) where
  policyLayers : List P
  builderLayers : List B
  ann : TypeMap K V
  deriving DecidableEq, Repr

/-- BasePolicy::With from base.h with any number of extension arguments:
MergeLayers of the policy templates of self and the extras, MergeLayers
of the builder templates, and type_map Merge of the annotations with
self first. -/
def withMany {P B K V : Type} (d : MDomain P B K V) (es : List (MDomain P B K V)) :
    MDomain P B K V :=
  { policyLayers := d.policyLayers ++ (es.map MDomain.policyLayers).flatten
    builderLayers := d.builderLayers ++ (es.map MDomain.builderLayers).flatten
    ann := mergeAnn (d.ann :: es.map MDomain.ann) }

/-- With applied to a single extension. -/
def withOne {P B K V : Type} (d e : MDomain P B K V) : MDomain P B K V :=
  withMany d [e]

/-! ## Status code resolution: merror/domain/status.h -/

/-- Small alphabet of absl::StatusCode values. -/
inductive StatusCode where
  | ok
  | cancelled
  | unknown
  | internal
  | invalidArgument
  deriving DecidableEq, Repr

/-- Model of absl::Status: a code plus a message string. -/
structure MStatus where
  code : StatusCode
  message : String
  deriving DecidableEq, Repr

/-- Annotation keys used by status.h: ErrorCodeAnnotation and
DefaultErrorCodeAnnotation. -/
inductive StatusAnnKey where
  | errorCode
  | defaultErrorCode
  deriving DecidableEq, Repr

/-- State of a ConcreteBuilder about to finalize a status-shaped result:
its own annotations, the annotations of the policy that produced it, and
the two description accumulators.  GetPolicyDescription and
GetBuilderDescription from description.h are modelled as the final
accumulated strings. -/
structure StatusBuilderState where
  builderAnn : TypeMap StatusAnnKey StatusCode
  policyAnn : TypeMap StatusAnnKey StatusCode
  policyDescription : String
  builderDescription : String
  deriving DecidableEq, Repr

/-- HasAnnotation for a builder (base.h): Has over the builder
annotations and the policy annotations. -/
def hasAnnot (b : StatusBuilderState) (k : StatusAnnKey) : Bool :=
  hasKeyAnn b.builderAnn k || hasKeyAnn b.policyAnn k

/-- GetAnnotationOr for a builder (base.h): GetOr over the builder
annotations first, then the policy annotations, then the default. -/
def getAnnotationOr (b : StatusBuilderState) (k : StatusAnnKey) (d : StatusCode) : StatusCode :=
  getOrAnn [b.builderAnn, b.policyAnn] k d

/-- Combined lookup used to state the precedence theorem: the newest
builder-level annotation if any, else the newest policy-level one. -/
def annFind (b : StatusBuilderState) (k : StatusAnnKey) : Option StatusCode :=
  (getAnn? b.builderAnn k).orElse (fun _ => getAnn? b.policyAnn k)

/-- Section of absl::ascii: true on the six ASCII whitespace
characters. -/
def isAsciiSpace (c : Char) : Bool :=
  c = ' ' || c = '\t' || c = '\n' || c = '\x0b' || c = '\x0c' || c = '\r'

/-- absl::StripAsciiWhitespace: drop whitespace from both ends. -/
def stripAsciiWhitespace (s : String) : String :=
  String.mk (((s.data.dropWhile isAsciiSpace).reverse.dropWhile isAsciiSpace).reverse)

/-- MakeStatus::MakeMError for a Status culprit (status.h lines
213-244).  The code is the ErrorCode annotation if present, else the
culprit code.  With no accumulated descriptions the culprit is returned
as is (or its message is kept under the overriding code); otherwise the
three stripped, non-empty description parts are joined by newlines. -/
def makeMErrorStatus (b : StatusBuilderState) (culprit : MStatus) : MStatus :=
  let code := getAnnotationOr b StatusAnnKey.errorCode culprit.code
  if b.policyDescription = "" && b.builderDescription = "" then
    if hasAnnot b StatusAnnKey.errorCode then
      { code := code, message := culprit.message }
    else culprit
  else
    let parts :=
      ([culprit.message, b.policyDescription, b.builderDescription].map
        stripAsciiWhitespace).filter (fun s => s ≠ "")
    let message := String.intercalate "\n" parts
    if hasAnnot b StatusAnnKey.errorCode then
      { code := code, message := message }
    else
      { code := culprit.code, message := message }

/-- Code component of MakeStatus::MakeMError for a StatusCode culprit
(status.h lines 205-211): the ErrorCode annotation if present, else the
culprit itself.  The message component (StatusDescription, pure context
formatting) is not modelled because no claim depends on it. -/
def makeMErrorCodeCulprit (b : StatusBuilderState) (culprit : StatusCode) : StatusCode :=
  getAnnotationOr b StatusAnnKey.errorCode culprit

/-- Code component of internal_status::Fallback (status.h lines
262-273): requires, by static_assert, an ErrorCode or DefaultErrorCode
annotation (modelled as none when neither is present, i.e. the build
fails); the code is GetAnnotationOr of ErrorCode with GetAnnotationOr of
DefaultErrorCode as the default.  The innermost default (Void in C++) is
unreachable under the guard; StatusCode.ok stands in for it. -/
def fallbackErrorCode (b : StatusBuilderState) : Option StatusCode :=
  if hasAnnot b StatusAnnKey.defaultErrorCode || hasAnnot b StatusAnnKey.errorCode then
    some (getAnnotationOr b StatusAnnKey.errorCode
      (getAnnotationOr b StatusAnnKey.defaultErrorCode StatusCode.ok))
  else none

/-- Shape of the culprit reaching a status-shaped MakeError: a Status,
a bare StatusCode, or a value with no status shape (for instance the
Void culprit of MERROR or the false culprit of a bool MVERIFY).  A
StatusOr culprit delegates to its Status and is covered by statusVal. -/
inductive StatusCulprit where
  | statusVal (s : MStatus)
  | codeVal (c : StatusCode)
  | plain
  deriving DecidableEq, Repr

/-- Status code carried by the culprit itself, if any. -/
def culpritStatusCode : StatusCulprit → Option StatusCode
  | StatusCulprit.statusVal s => some s.code
  | StatusCulprit.codeVal c => some c
  | StatusCulprit.plain => none

/-- Finalized error code of a status-shaped result: the overload set of
MakeStatus::MakeMError handles culprits that carry a code, and every
other culprit falls through the Hook chain to
internal_status::Fallback.  none models the failed static_assert (build
failure). -/
def finalizeErrorCode (b : StatusBuilderState) : StatusCulprit → Option StatusCode
  | StatusCulprit.statusVal s => some (makeMErrorStatus b s).code
  | StatusCulprit.codeVal c => some (makeMErrorCodeCulprit b c)
  | StatusCulprit.plain => fallbackErrorCode b

/-! ## Relational-operand decomposition: merror/internal/expand_expr.h -/

/-- Operand values flowing through an expanded expression: C++ ints and
bools. -/
inductive Val where
  | i (n : Int)
  | b (v : Bool)
  deriving DecidableEq, Repr

/-- RelationalOperator from types.h. -/
inductive RelOp where
  | eq
  | ne
  | lt
  | gt
  | le
  | ge
  deriving DecidableEq, Repr

/-- Forwarding operators of expand_expr.h (the introspecting six are
RelOp).  Assignment operators and shifts follow the identical forwarding
scheme and are omitted from the model alphabet. -/
inductive FwdOp where
  | mul
  | div
  | mod
  | plus
  | minus
  | bitAnd
  | bitXor
  | bitOr
  deriving DecidableEq, Repr

/-- Operator captured in an Expr node: forwarding or introspecting. -/
inductive ChainOp where
  | fwd (o : FwdOp)
  | rel (o : RelOp)
  deriving DecidableEq, Repr

/-- The left-leaning Expr chain built by the overloaded operators: the
innermost node is the Leaf produced by the catch-all ArrowStar of
ExprBuilder, and every later operator appends with an already-evaluated
right operand. -/
inductive XExpr where
  | leaf (v : Val)
  | bin (op : ChainOp) (l : XExpr) (r : Val)
  deriving DecidableEq, Repr

/-- Integral promotion, as applied by the builtin C++ operators. -/
def asInt : Val → Int
  | Val.i n => n
  | Val.b true => 1
  | Val.b false => 0

/-- Builtin C++ semantics of a forwarding operator after promotion.
Division and remainder truncate toward zero as in C++. -/
def evalFwd : FwdOp → Val → Val → Val
  | FwdOp.mul, a, b => Val.i (asInt a * asInt b)
  | FwdOp.div, a, b => Val.i (Int.tdiv (asInt a) (asInt b))
  | FwdOp.mod, a, b => Val.i (Int.tmod (asInt a) (asInt b))
  | FwdOp.plus, a, b => Val.i (asInt a + asInt b)
  | FwdOp.minus, a, b => Val.i (asInt a - asInt b)
  | FwdOp.bitAnd, a, b => Val.i (Int.land (asInt a) (asInt b))
  | FwdOp.bitXor, a, b => Val.i (Int.xor (asInt a) (asInt b))
  | FwdOp.bitOr, a, b => Val.i (Int.lor (asInt a) (asInt b))

/-- Builtin C++ semantics of a comparison after promotion. -/
def evalRel : RelOp → Val → Val → Val
  | RelOp.eq, a, b => Val.b (decide (asInt a = asInt b))
  | RelOp.ne, a, b => Val.b (decide (asInt a ≠ asInt b))
  | RelOp.lt, a, b => Val.b (decide (asInt a < asInt b))
  | RelOp.gt, a, b => Val.b (decide (asInt b < asInt a))
  | RelOp.le, a, b => Val.b (decide (asInt a ≤ asInt b))
  | RelOp.ge, a, b => Val.b (decide (asInt b ≤ asInt a))

/-- Value of a chain under a one-argument continuation: every operator,
including the introspecting six, falls back to its forwarding form
because the BoundRhs continuations of ExprVisitor accept a single
argument. -/
def evalChain : XExpr → Val
  | XExpr.leaf v => v
  | XExpr.bin (ChainOp.fwd o) l r => evalFwd o (evalChain l) r
  | XExpr.bin (ChainOp.rel o) l r => evalRel o (evalChain l) r

/-- Result of ExprVisitor::Visit with the final (four-argument-capable)
visitor: either a single value, or the expanded quadruple of left
operand, operator, right operand and result. -/
inductive Visited where
  | single (v : Val)
  | expanded (l : Val) (op : RelOp) (r : Val) (res : Val)
  deriving DecidableEq, Repr

/-- ExprVisitor::Visit from expand_expr.h: only the outermost operator
of the chain sees the final visitor; if it is one of the six
introspecting operators the visitor receives the four already-evaluated
artifacts, otherwise it receives the single forwarded value. -/
def visitExpand : XExpr → Visited
  | XExpr.leaf v => Visited.single v
  | XExpr.bin (ChainOp.fwd o) l r => Visited.single (evalFwd o (evalChain l) r)
  | XExpr.bin (ChainOp.rel o) l r =>
    Visited.expanded (evalChain l) o r (evalRel o (evalChain l) r)

/-- Value produced for the downstream consumer regardless of
expansion. -/
def visitedValue : Visited → Val
  | Visited.single v => v
  | Visited.expanded _ _ _ res => res

/-- Operand capture, if any, performed by the visit. -/
def relCapture (e : XExpr) : Option (Val × RelOp × Val) :=
  match visitExpand e with
  | Visited.single _ => none
  | Visited.expanded l op r _ => some (l, op, r)

/-- CastToBool from expand_expr.h applied to a value (the contextual
conversion of the builtin short-circuit operators): nonzero ints and
true are truthy. -/
def castValToBool : Val → Bool
  | Val.i n => decide (n ≠ 0)
  | Val.b v => v

/-- Expr::operator bool from expand_expr.h: visit the chain with the
one-argument CastToBool visitor, so the whole chain forwards and the
result value is converted. -/
def castToBool (e : XExpr) : Bool :=
  castValToBool (evalChain e)

/-- Effectful right-hand operand: a state-passing function over an
invocation counter, standing for an arbitrary side-effecting C++
subexpression. -/
def EffectFn : Type := Nat → Val × Nat

/-- Builtin operator of logical or with an Expr chain on the left: the
chain triggers Expr::operator bool, and the right operand is evaluated
only when the left is false.  This is the expansion of a verify whose
top-level operator is the builtin short-circuiting or. -/
def exprOr (lhs : XExpr) (rhs : EffectFn) : Nat → Bool × Nat := fun s =>
  if castToBool lhs then (true, s)
  else
    match rhs s with
    | (v, s2) => (castValToBool v, s2)

/-- Builtin operator of logical and with an Expr chain on the left. -/
def exprAnd (lhs : XExpr) (rhs : EffectFn) : Nat → Bool × Nat := fun s =>
  if castToBool lhs then
    match rhs s with
    | (v, s2) => (castValToBool v, s2)
  else (false, s)

/-- Builtin conditional operator with an Expr chain as the
condition. -/
def exprCond (lhs : XExpr) (thenBr elseBr : EffectFn) : Nat → Val × Nat := fun s =>
  if castToBool lhs then thenBr s else elseBr s

/-- Capture of a relational expression for the error context
(RelationalExpression from types.h). -/
structure RelExprRec where
  left : String
  op : RelOp
  right : String
  deriving DecidableEq, Repr

/-- Outcome of the Verifier from macros.h: whether the argument
classified as an error, and the captured relational expression if
any. -/
structure VerifyOutcome where
  isError : Bool
  relExpr : Option RelExprRec
  deriving DecidableEq, Repr

/-- PrintTo from internal_print::Printer in domain/print.h applied to a
model value: plain std::ostream insertion, which formats an int in
decimal and a bool as 1 or 0 (no boolalpha is ever set). -/
def valToString : Val → String
  | Val.i n => toString n
  | Val.b true => "1"
  | Val.b false => "0"

/-- PrintOperands from internal_print_operands::Printer in
print_operands.h: when CanPrint holds for both operands it returns true
after streaming each operand into its string via TryPrint, else false.
For the model values — ints and bools, both streamable — CanPrint always
holds, so both snapshots are always produced; the Operand alias (the
char-pointer versus string special case) does not apply to these
types. -/
def printOperandsModel (l r : Val) : Option (String × String) :=
  some (valToString l, valToString r)

/-- AcceptBool::MVerify from domain/bool.h: only a genuine bool is
accepted (no implicit conversions); the acceptor value is the bool
itself and IsError is its negation. -/
def mverifyAcceptor : Val → Option Bool
  | Val.b v => some v
  | Val.i _ => none

/-- The two Verifier overloads from macros.h, selected by the shape of
the visit: for an expanded comparison that classifies as an error, the
operands are printed into the relational-expression record; a
non-relational argument never carries one.  none models the compile
error for an unsupported argument type. -/
def runVerify (e : XExpr) : Option VerifyOutcome :=
  match visitExpand e with
  | Visited.single v =>
    (mverifyAcceptor v).map (fun value => { isError := !value, relExpr := none })
  | Visited.expanded l op r res =>
    (mverifyAcceptor res).map (fun value =>
      if value then { isError := false, relExpr := none }
      else
        match printOperandsModel l r with
        | some (ls, rs) =>
          { isError := true, relExpr := some { left := ls, op := op, right := rs } }
        | none => { isError := true, relExpr := none })

/-! ## Thread-local stash: merror/internal/tls_map.h and the MTRY state
machine from macros.h -/

/-- Node of the thread-local free-list: a key (minus one marks a free
node) and the stored value (none for free nodes, whose storage is
uninitialized). -/
structure TNode (V : Type) where
  key : Int
  val : Option V
  deriving DecidableEq, Repr

/-- The per-thread node list headed by Node::head_. -/
abbrev TlsMap (V : Type) := List (TNode V)

/-- Unlink of the first free node performed by the scan loop in
Node::Put; the fast path (free head) is the first step of the same
scan. -/
def removeFirstFree {V : Type} : TlsMap V → TlsMap V
  | [] => []
  | n :: rest => if n.key = -1 then rest else n :: removeFirstFree rest

/-- tls_map::Put: reuse the first free node if any (else allocate) and
push the node, initialized with the key and value, at the head. -/
def tlsPut {V : Type} (m : TlsMap V) (k : Nat) (v : V) : TlsMap V :=
  { key := (k : Int), val := some v } :: removeFirstFree m

/-- tls_map::Get: walk from the head and return the value of the first
node carrying the key, hence the most recently inserted one.  none
models the violated precondition (the C++ asserts). -/
def tlsGet {V : Type} : TlsMap V → Nat → Option V
  | [], _ => none
  | n :: rest, k => if n.key = (k : Int) then n.val else tlsGet rest k

/-- tls_map::Remove: destroy the value of the first node carrying the
key (the most recently inserted one) and mark the node free in place
(Node::Release). -/
def tlsRemove {V : Type} : TlsMap V → Nat → TlsMap V
  | [], _ => []
  | n :: rest, k =>
    if n.key = (k : Int) then { key := -1, val := none } :: rest
    else n :: tlsRemove rest k

/-- Number of live entries with the given key (testing::Size restricted
to one key). -/
def countLive {V : Type} (m : TlsMap V) (k : Nat) : Nat :=
  (m.filter (fun n => decide (n.key = (k : Int)))).length

/-- Stash operations, for instrumenting the interaction of one MTRY
evaluation with the thread-local storage. -/
inductive StashOp where
  | putOp (k : Nat)
  | getOp (k : Nat)
  | removeOp (k : Nat)
  deriving DecidableEq, Repr

/-- Acceptor produced by Domain::Try, as consumed by MTryState:
IsError, GetValue (success side) and GetCulprit (failure side). -/
structure TryAcceptor (V C : Type) where
  isError : Bool
  value : Option V
  culprit : Option C
  deriving DecidableEq, Repr

/-- MTryState::Stash from macros.h: the domain (copied or referenced)
and the culprit taken from the stashed acceptor. -/
structure StashEntry (D C : Type) where
  domain : D
  culprit : Option C
  deriving DecidableEq, Repr

/-- Result of one complete MTRY evaluation: the extracted value on
success, or the stashed domain and culprit handed to the error builder
on failure. -/
inductive MTryOutcome (V D C : Type) where
  | success (v : Option V)
  | failure (domain : D) (culprit : Option C)
  deriving DecidableEq, Repr

/-- One complete MTRY evaluation over the thread-local stash, following
MERROR_INTERNAL_MTRY_IMPL and MTryState: on success GetSelfOrNull
returns the state itself and GetValue is consumed in place with no
stash interaction; on failure the domain and acceptor are stashed under
the call-site key (tls_map::Put), the enclosing statement fetches the
entry by the same key (tls_map::Get) and builds the error from the
stashed domain and culprit, and the MTryState destructor removes the
entry (tls_map::Remove).  The third component is the trace of stash
operations performed. -/
def mtryRun {V D C : Type} (tls : TlsMap (StashEntry D C)) (key : Nat) (dom : D)
    (acc : TryAcceptor V C) :
    MTryOutcome V D C × TlsMap (StashEntry D C) × List StashOp :=
  if acc.isError then
    let tls1 := tlsPut tls key { domain := dom, culprit := acc.culprit }
    let st := tlsGet tls1 key
    let tls2 := tlsRemove tls1 key
    match st with
    | some e =>
      (MTryOutcome.failure e.domain e.culprit, tls2,
        [StashOp.putOp key, StashOp.getOp key, StashOp.removeOp key])
    | none =>
      (MTryOutcome.success none, tls2,
        [StashOp.putOp key, StashOp.getOp key, StashOp.removeOp key])
  else
    (MTryOutcome.success acc.value, tls, [])

/-- The abrupt-unwind variant: the failure is stashed but the
consumption point never runs, so only the MTryState destructor executes
and releases the slot (tls_map::Remove, since the stash pointer is not
null). -/
def mtryStashThenUnwind {V D C : Type} (tls : TlsMap (StashEntry D C)) (key : Nat)
    (dom : D) (acc : TryAcceptor V C) : TlsMap (StashEntry D C) :=
  tlsRemove (tlsPut tls key { domain := dom, culprit := acc.culprit }) key

/-- Spec-side statement of the failure-code precedence of section 4.2 of
the spec: the call-site or domain override if set, else the code carried
by the culprit, else the default code, else the build fails (none). -/
def specFailureCodePrecedence (override culpritCode dflt : Option StatusCode) :
    Option StatusCode :=
  match override with
  | some o => some o
  | none =>
    match culpritCode with
    | some c => some c
    | none => dflt

/-! ## Theorems -/

theorem hasKeyAnn_eq_isSome {K V : Type} [DecidableEq K] (m : TypeMap K V) (k : K) :
    hasKeyAnn m k = (getAnn? m k).isSome := by
  induction m with
  | nil => rfl
  | cons p rest ih =>
    obtain ⟨k2, e⟩ := p
    by_cases h : k2 = k
    · cases e <;> simp [hasKeyAnn, getAnn?, getAllAnn, h]
    · simp only [hasKeyAnn, getAnn?, getAllAnn, if_neg h]
      simpa [getAnn?] using ih

theorem getOrAnn_pair {K V : Type} [DecidableEq K] (m1 m2 : TypeMap K V) (k : K) (d : V) :
    getOrAnn [m1, m2] k d = ((getAnn? m1 k).orElse fun _ => getAnn? m2 k).getD d := by
  simp only [getOrAnn, hasKeyAnn_eq_isSome]
  cases h1 : getAnn? m1 k with
  | some v => simp [Option.orElse]
  | none =>
    cases h2 : getAnn? m2 k with
    | some v => simp [Option.orElse]
    | none => simp [Option.orElse]

theorem hasAnnot_eq_isSome (b : StatusBuilderState) (k : StatusAnnKey) :
    hasAnnot b k = (annFind b k).isSome := by
  simp only [hasAnnot, annFind, hasKeyAnn_eq_isSome]
  cases getAnn? b.builderAnn k <;> cases getAnn? b.policyAnn k <;> simp [Option.orElse]

theorem getAnnotationOr_eq_getD (b : StatusBuilderState) (k : StatusAnnKey) (d : StatusCode) :
    getAnnotationOr b k d = (annFind b k).getD d := by
  simp only [getAnnotationOr, annFind]
  exact getOrAnn_pair b.builderAnn b.policyAnn k d

/-- C3: for every annotation store and tag, adding values X then Y under
the tag makes get return Y; after remove-all on the tag followed by
adding Z, get returns Z and get-all contains exactly the one entry Z
(the tombstone cuts off every older entry). -/
theorem annotation_last_write_wins {K V : Type} [DecidableEq K]
    (m : TypeMap K V) (tag : K) (x y z : V) :
    getAnn? (addAnn (addAnn m tag x) tag y) tag = some y ∧
    getAnn? (addAnn (removeAllAnn m tag) tag z) tag = some z ∧
    getAllAnn (addAnn (removeAllAnn m tag) tag z) tag = [z] := by
  refine ⟨?_, ?_, ?_⟩ <;> simp [getAnn?, addAnn, removeAllAnn, getAllAnn]

theorem withMany_cons {P B K V : Type} (d e : MDomain P B K V)
    (es : List (MDomain P B K V)) :
    withMany (withOne d e) es = withMany d (e :: es) := by
  simp [withMany, withOne, mergeAnn, List.flatten_append]

/-- C2: extending a base domain with fragments e1..eN in one With call
produces exactly the same domain - the same composed policy and builder
layers and the same merged annotation store, hence the same
classification results and annotation resolution - as chaining one
With call per fragment. -/
theorem with_variadic_eq_chained {P B K V : Type} (d : MDomain P B K V)
    (es : List (MDomain P B K V)) :
    withMany d es = es.foldl withOne d := by
  induction es generalizing d with
  | nil => simp [withMany, mergeAnn]
  | cons e rest ih => rw [List.foldl_cons, ← ih, withMany_cons]

/-- C1: for every status-shaped finalized failure, the finalized error
code follows the fixed precedence: the ErrorCode annotation (set at the
builder or at the domain level, newest first) if present, else the code
carried by the culprit itself, else the DefaultErrorCode annotation,
else none (the build fails on the static_assert in the fallback). -/
theorem failure_code_precedence (b : StatusBuilderState) (culprit : StatusCulprit) :
    finalizeErrorCode b culprit =
      specFailureCodePrecedence (annFind b StatusAnnKey.errorCode)
        (culpritStatusCode culprit) (annFind b StatusAnnKey.defaultErrorCode) := by
  have hHas := hasAnnot_eq_isSome b StatusAnnKey.errorCode
  have hHasD := hasAnnot_eq_isSome b StatusAnnKey.defaultErrorCode
  cases culprit with
  | statusVal s =>
    have hGet := getAnnotationOr_eq_getD b StatusAnnKey.errorCode s.code
    cases hEC : annFind b StatusAnnKey.errorCode with
    | some o =>
      rw [hEC] at hHas hGet
      simp only [finalizeErrorCode, culpritStatusCode, makeMErrorStatus, hHas, hGet,
        specFailureCodePrecedence, Option.getD_some, Option.isSome_some]
      split <;> simp
    | none =>
      rw [hEC] at hHas hGet
      simp only [finalizeErrorCode, culpritStatusCode, makeMErrorStatus, hHas, hGet,
        specFailureCodePrecedence, Option.getD_none, Option.isSome_none]
      split <;> simp
  | codeVal c =>
    have hGet := getAnnotationOr_eq_getD b StatusAnnKey.errorCode c
    cases hEC : annFind b StatusAnnKey.errorCode with
    | some o =>
      rw [hEC] at hGet
      simp [finalizeErrorCode, culpritStatusCode, makeMErrorCodeCulprit, hGet,
        specFailureCodePrecedence]
    | none =>
      rw [hEC] at hGet
      simp [finalizeErrorCode, culpritStatusCode, makeMErrorCodeCulprit, hGet,
        specFailureCodePrecedence]
  | plain =>
    cases hEC : annFind b StatusAnnKey.errorCode with
    | some o =>
      rw [hEC] at hHas
      have hGet := getAnnotationOr_eq_getD b StatusAnnKey.errorCode
        (getAnnotationOr b StatusAnnKey.defaultErrorCode StatusCode.ok)
      rw [hEC] at hGet
      simp [finalizeErrorCode, culpritStatusCode, fallbackErrorCode, hHas, hGet,
        specFailureCodePrecedence]
    | none =>
      rw [hEC] at hHas
      cases hDC : annFind b StatusAnnKey.defaultErrorCode with
      | some dc =>
        rw [hDC] at hHasD
        have hGetD := getAnnotationOr_eq_getD b StatusAnnKey.defaultErrorCode StatusCode.ok
        rw [hDC] at hGetD
        have hGet := getAnnotationOr_eq_getD b StatusAnnKey.errorCode dc
        rw [hEC] at hGet
        simp [finalizeErrorCode, culpritStatusCode, fallbackErrorCode, hHas, hHasD,
          hGetD, hGet, specFailureCodePrecedence]
      | none =>
        rw [hDC] at hHasD
        simp [finalizeErrorCode, culpritStatusCode, fallbackErrorCode, hHas, hHasD,
          specFailureCodePrecedence]

/-- C10: when the culprit of a status-shaped failure is itself a status,
no ErrorCode annotation is present, and no description has been
accumulated on the policy or the builder, finalizing returns the culprit
status unchanged - both its code and its message pass through. -/
theorem status_culprit_passthrough (b : StatusBuilderState) (s : MStatus)
    (hEC : hasAnnot b StatusAnnKey.errorCode = false)
    (hp : b.policyDescription = "") (hb : b.builderDescription = "") :
    makeMErrorStatus b s = s := by
  simp [makeMErrorStatus, hp, hb, hEC]

/-- Witness for C10 at a concrete builder and culprit. -/
theorem status_culprit_passthrough_witness :
    hasAnnot
        { builderAnn := [], policyAnn := [], policyDescription := "",
          builderDescription := "" } StatusAnnKey.errorCode = false ∧
      makeMErrorStatus
          { builderAnn := [], policyAnn := [], policyDescription := "",
            builderDescription := "" }
          { code := StatusCode.cancelled, message := "boom" } =
        { code := StatusCode.cancelled, message := "boom" } :=
  ⟨by decide, status_culprit_passthrough _ _ (by decide) rfl rfl⟩

/-- C4: for a verify whose top-level operator is a builtin
short-circuiting one, the original semantics are preserved by the
decomposition machinery: the Expr chain on the left is converted through
operator bool, and the right operand is an arbitrary effectful
subexpression that is never evaluated when short-circuiting skips it -
in particular verify of true or side_effect() leaves the effect state
untouched, and likewise for false and side_effect(), and for the
conditional operator. -/
theorem short_circuit_preserved (rhs thenBr elseBr : EffectFn) (s : Nat) :
    exprOr (XExpr.leaf (Val.b true)) rhs s = (true, s) ∧
    exprAnd (XExpr.leaf (Val.b false)) rhs s = (false, s) ∧
    exprCond (XExpr.leaf (Val.b true)) thenBr elseBr s = thenBr s :=
  ⟨rfl, rfl, rfl⟩

/-- C5: a verify of an arithmetic comparison that classifies as an error
captures snapshots of the two already-evaluated operands: for the check
of a + b less than c, the failure context carries the decimal strings of
the evaluated left operand a + b and of the right operand c together
with the operator. -/
theorem relational_operands_captured (a b c : Int)
    (h : decide (a + b < c) = false) :
    runVerify (XExpr.bin (ChainOp.rel RelOp.lt)
        (XExpr.bin (ChainOp.fwd FwdOp.plus) (XExpr.leaf (Val.i a)) (Val.i b))
        (Val.i c)) =
      some { isError := true,
             relExpr := some { left := toString (a + b), op := RelOp.lt,
                               right := toString c } } := by
  simp [runVerify, visitExpand, evalChain, evalFwd, evalRel, asInt, mverifyAcceptor,
    printOperandsModel, valToString, h]

/-- Witness for C5 at the concrete check of 2 + 3 less than 4, which
produces the operand strings 5 and 4. -/
theorem relational_operands_captured_witness :
    decide ((2 : Int) + 3 < 4) = false ∧
      runVerify (XExpr.bin (ChainOp.rel RelOp.lt)
          (XExpr.bin (ChainOp.fwd FwdOp.plus) (XExpr.leaf (Val.i 2)) (Val.i 3))
          (Val.i 4)) =
        some { isError := true,
               relExpr := some { left := "5", op := RelOp.lt, right := "4" } } :=
  ⟨by decide, (relational_operands_captured 2 3 4 (by decide)).trans (by decide)⟩

/-- C9 counterexample: the source text of a bitwise-or next to a
comparison, with a = 2, b = 5, c = 5, parses in C++ as a | (b == c)
because the comparison binds tighter; the right operand b == c is
evaluated natively to true before the Expr chain captures the bitwise
or.  The visit therefore delivers a single forwarded value (2 | 1 = 3 by
promotion) and never decomposes at the comparison, contradicting the
claim that such an expression decomposes at it. -/
theorem decomposition_under_bitor_counterexample :
    visitExpand (XExpr.bin (ChainOp.fwd FwdOp.bitOr) (XExpr.leaf (Val.i 2))
        (Val.b true)) =
      Visited.single (Val.i 3) ∧
    ¬ ∃ l r res,
        visitExpand (XExpr.bin (ChainOp.fwd FwdOp.bitOr) (XExpr.leaf (Val.i 2))
            (Val.b true)) =
          Visited.expanded l RelOp.eq r res := by
  constructor
  · decide
  · rintro ⟨l, r, res, hEq⟩
    rw [show visitExpand (XExpr.bin (ChainOp.fwd FwdOp.bitOr) (XExpr.leaf (Val.i 2))
        (Val.b true)) = Visited.single (Val.i 3) from by decide] at hEq
    exact Visited.noConfusion hEq

/-- C9 amended: operators with precedence at or below the comparisons
participate in the capture infrastructure, preserving the value of the
expression, but decomposition happens exactly at the outermost captured
operator: when that operator is a comparison the visit delivers its two
operands, and when it is a forwarding operator (such as bitwise or above
a natively evaluated comparison) no operands are captured, while the
delivered value always agrees with the plain C++ evaluation of the
chain. -/
theorem decomposition_at_outermost_comparison (t : XExpr) (o : RelOp) (fo : FwdOp)
    (r : Val) (e : XExpr) :
    relCapture (XExpr.bin (ChainOp.rel o) t r) = some (evalChain t, o, r) ∧
    relCapture (XExpr.bin (ChainOp.fwd fo) t r) = none ∧
    visitedValue (visitExpand e) = evalChain e := by
  refine ⟨rfl, rfl, ?_⟩
  cases e with
  | leaf v => rfl
  | bin op l r2 => cases op <;> rfl

theorem tlsGet_removeFirstFree {V : Type} (m : TlsMap V) (k : Nat) :
    tlsGet (removeFirstFree m) k = tlsGet m k := by
  induction m with
  | nil => rfl
  | cons n rest ih =>
    by_cases h : n.key = -1
    · have hk : ¬ n.key = (k : Int) := by omega
      simp [removeFirstFree, tlsGet, h, hk]
    · simp only [removeFirstFree, if_neg h, tlsGet, ih]

theorem countLive_removeFirstFree {V : Type} (m : TlsMap V) (k : Nat) :
    countLive (removeFirstFree m) k = countLive m k := by
  induction m with
  | nil => rfl
  | cons n rest ih =>
    by_cases h : n.key = -1
    · have hk : ¬ n.key = (k : Int) := by omega
      simp [removeFirstFree, countLive, List.filter_cons, h, hk]
    · by_cases hk : n.key = (k : Int) <;>
        simpa [removeFirstFree, countLive, List.filter_cons, h, hk] using ih

/-- C6: the thread-local stash behaves as a per-key stack, which is what
gives nested Try evaluations at one call site distinct slots with no
cross-talk: a put makes its value the one returned by lookup, a remove
after a put restores the previous lookup result (all older values are
kept), and both operations leave every other key untouched. -/
theorem stash_lifo_per_key {V : Type} (m : TlsMap V) (k k2 : Nat) (v : V)
    (hne : k2 ≠ k) :
    tlsGet (tlsPut m k v) k = some v ∧
    tlsGet (tlsRemove (tlsPut m k v) k) k = tlsGet m k ∧
    tlsGet (tlsPut m k v) k2 = tlsGet m k2 ∧
    tlsGet (tlsRemove (tlsPut m k v) k) k2 = tlsGet m k2 := by
  have hneg : ¬ (-1 : Int) = (k : Int) := by omega
  have hneg2 : ¬ (-1 : Int) = (k2 : Int) := by omega
  have hkk2 : ¬ (k : Int) = (k2 : Int) := by omega
  refine ⟨?_, ?_, ?_, ?_⟩
  · simp [tlsPut, tlsGet]
  · simp [tlsPut, tlsRemove, tlsGet, hneg, tlsGet_removeFirstFree]
  · simp [tlsPut, tlsGet, hkk2, tlsGet_removeFirstFree]
  · simp [tlsPut, tlsRemove, tlsGet, hneg2, hkk2, tlsGet_removeFirstFree]

/-- Witness for C6 at a concrete map and keys. -/
theorem stash_lifo_per_key_witness :
    (2 : Nat) ≠ 1 ∧
      (tlsGet (tlsPut ([⟨5, some 10⟩] : TlsMap Nat) 1 7) 1 = some 7 ∧
       tlsGet (tlsRemove (tlsPut ([⟨5, some 10⟩] : TlsMap Nat) 1 7) 1) 1 =
         tlsGet ([⟨5, some 10⟩] : TlsMap Nat) 1 ∧
       tlsGet (tlsPut ([⟨5, some 10⟩] : TlsMap Nat) 1 7) 2 =
         tlsGet ([⟨5, some 10⟩] : TlsMap Nat) 2 ∧
       tlsGet (tlsRemove (tlsPut ([⟨5, some 10⟩] : TlsMap Nat) 1 7) 1) 2 =
         tlsGet ([⟨5, some 10⟩] : TlsMap Nat) 2) :=
  ⟨by decide, stash_lifo_per_key _ 1 2 7 (by decide)⟩

/-- C7: an MTRY evaluation whose argument classifies as success performs
no stash interaction at all - the trace of stash operations is empty,
the thread-local storage is returned unchanged, and the value extracted
by the acceptor is consumed in place. -/
theorem mtry_success_no_stash_interaction {V D C : Type}
    (tls : TlsMap (StashEntry D C)) (key : Nat) (dom : D) (acc : TryAcceptor V C)
    (h : acc.isError = false) :
    mtryRun tls key dom acc =
      (MTryOutcome.success acc.value, tls, ([] : List StashOp)) := by
  simp [mtryRun, h]

/-- Witness for C7 at a concrete successful acceptor. -/
theorem mtry_success_no_stash_interaction_witness :
    ({ isError := false, value := some 42, culprit := none } :
        TryAcceptor Nat Nat).isError = false ∧
      mtryRun ([] : TlsMap (StashEntry Nat Nat)) 3 7
          ({ isError := false, value := some 42, culprit := none } :
            TryAcceptor Nat Nat) =
        (MTryOutcome.success (some 42), ([] : TlsMap (StashEntry Nat Nat)),
          ([] : List StashOp)) :=
  ⟨rfl, mtry_success_no_stash_interaction _ 3 7 _ rfl⟩

/-- C8: an MTRY evaluation that stashes a failure releases its slot by
the end of the evaluation - the consumed path removes the entry right
after use and the abrupt-unwind path removes it in the destructor - so
the number of live entries under the key, and the value visible under
the key, are the same before and after; additionally the evaluation
resolves to its own stashed domain and culprit. -/
theorem mtry_failure_releases_slot {V D C : Type} (tls : TlsMap (StashEntry D C))
    (key : Nat) (dom : D) (acc : TryAcceptor V C) (h : acc.isError = true) :
    countLive (mtryRun tls key dom acc).2.1 key = countLive tls key ∧
    tlsGet (mtryRun tls key dom acc).2.1 key = tlsGet tls key ∧
    countLive (mtryStashThenUnwind tls key dom acc) key = countLive tls key ∧
    (mtryRun tls key dom acc).1 =
      (MTryOutcome.failure dom acc.culprit : MTryOutcome V D C) := by
  have hneg : ¬ (-1 : Int) = (key : Int) := by omega
  refine ⟨?_, ?_, ?_, ?_⟩
  · simp only [mtryRun, h, if_true, tlsPut, tlsGet, tlsRemove, if_pos rfl,
      countLive, List.filter_cons, hneg, decide_eq_false hneg, Bool.false_eq_true,
      if_false]
    exact countLive_removeFirstFree tls key
  · simp [mtryRun, h, tlsPut, tlsGet, tlsRemove, hneg, tlsGet_removeFirstFree]
  · simp only [mtryStashThenUnwind, tlsPut, tlsRemove, if_pos rfl, countLive,
      List.filter_cons, decide_eq_false hneg, Bool.false_eq_true, if_false]
    exact countLive_removeFirstFree tls key
  · simp [mtryRun, h, tlsPut, tlsGet]

/-- Witness for C8 at a concrete failing acceptor. -/
theorem mtry_failure_releases_slot_witness :
    ({ isError := true, value := none, culprit := some 13 } :
        TryAcceptor Nat Nat).isError = true ∧
      (countLive (mtryRun ([] : TlsMap (StashEntry Nat Nat)) 2 7
            ({ isError := true, value := none, culprit := some 13 } :
              TryAcceptor Nat Nat)).2.1 2 =
          countLive ([] : TlsMap (StashEntry Nat Nat)) 2 ∧
        tlsGet (mtryRun ([] : TlsMap (StashEntry Nat Nat)) 2 7
            ({ isError := true, value := none, culprit := some 13 } :
              TryAcceptor Nat Nat)).2.1 2 =
          tlsGet ([] : TlsMap (StashEntry Nat Nat)) 2 ∧
        countLive (mtryStashThenUnwind ([] : TlsMap (StashEntry Nat Nat)) 2 7
            ({ isError := true, value := none, culprit := some 13 } :
              TryAcceptor Nat Nat)) 2 =
          countLive ([] : TlsMap (StashEntry Nat Nat)) 2 ∧
        (mtryRun ([] : TlsMap (StashEntry Nat Nat)) 2 7
            ({ isError := true, value := none, culprit := some 13 } :
              TryAcceptor Nat Nat)).1 =
          (MTryOutcome.failure 7 (some 13) : MTryOutcome Nat Nat Nat)) :=
  ⟨rfl, mtry_failure_releases_slot _ 2 7 _ rfl⟩

end Merror
